import Mathlib

/-!
Shallow embedding of `src/codealong/src/git_blame.rs` (the `GitBlame`
streaming blame reader and the `BlameLine` record parser) together with the
small command-builder and process-cleanup fragments the specification talks
about.

Modelling conventions:
* Rust `usize` values are `Nat`s; `usize::MAX` is `USIZE_MAX = 2^64 - 1`.
  `str::parse::<usize>()` accepts only ASCII `0-9` digits, so on a string of
  regex `\d` digits it fails (and `.unwrap()` panics) exactly when some digit
  is a non-ASCII Unicode decimal digit (`InvalidDigit`) or the decimal value
  exceeds `USIZE_MAX` (`PosOverflow`).
* The regex crate's `\d` is Unicode-aware by default: it is the general
  category `Nd` (`\p{Nd}`), embedded here as `isRegexDigit` over the Nd
  ranges, not just ASCII `0-9`.
* A computation that can panic is modelled with `RustOutcome`.
* `git2::Oid` is an opaque token wrapping its 40-hex-character rendering;
  `Oid::from_str` on a 40-hex-char capture always succeeds.
* The child's stdout is a `BufReader`; `read_line` either appends a chunk of
  text (`ReadEvent.line`, with `num_bytes` its length, `0` only at
  end-of-stream) or fails (`ReadEvent.ioError`, modelled as appending
  nothing).  End-of-stream is the exhausted list: every further `read_line`
  returns `Ok(0)`.  The child's stderr is consumed only through
  `read_to_string`, so it is modelled by its one observable outcome: the full
  drained text, or an I/O failure.
* `HashMap::insert` overwrites an existing key; the map is modelled as an
  association list where insertion prepends and lookup takes the most recent
  binding, which is observationally the same.
-/

set_option maxHeartbeats 1000000

namespace Codealong

/-- Outcome of a Rust computation that may panic (`unwrap` / `expect`). -/
inductive RustOutcome (α : Type) where
  | ok : α → RustOutcome α
  | panicked : RustOutcome α
deriving DecidableEq, Repr

/-- Rust's `Result`. -/
inductive RResult (ε α : Type) where
  | ok : α → RResult ε α
  | err : ε → RResult ε α
deriving DecidableEq, Repr

/-- `git2::Oid`: opaque revision identifier, carried as its 40-hex string. -/
structure Oid where
  hex : String
deriving DecidableEq, Repr

def Oid.to_string (o : Oid) : String := o.hex

/-- The error kinds of `crate::error` that `git_blame.rs` can produce from a
lookup: `ErrorKind::BlameError(text)` and a generic I/O error. -/
inductive ErrorKind where
  | BlameError : String → ErrorKind
  | IoError : ErrorKind
deriving DecidableEq, Repr

/-- Character class `[0-9a-f]` of the blame-line regex. -/
def isHexLower (c : Char) : Bool := ('0' ≤ c && c ≤ '9') || ('a' ≤ c && c ≤ 'f')

/-- ASCII decimal digit `0-9`: the only digits `str::parse::<usize>()`
accepts, and the decimal digits of the spec's documented record shape. -/
def isAsciiDigit (c : Char) : Bool := '0' ≤ c && c ≤ '9'

/-- The code-point ranges of the Unicode general category `Nd` (decimal
number), Unicode 12.0 — the table behind the regex crate's default,
Unicode-aware `\d` (`\p{Nd}`). -/
def ndRanges : List (Nat × Nat) :=
  [(0x0030, 0x0039), (0x0660, 0x0669), (0x06F0, 0x06F9), (0x07C0, 0x07C9),
   (0x0966, 0x096F), (0x09E6, 0x09EF), (0x0A66, 0x0A6F), (0x0AE6, 0x0AEF),
   (0x0B66, 0x0B6F), (0x0BE6, 0x0BEF), (0x0C66, 0x0C6F), (0x0CE6, 0x0CEF),
   (0x0D66, 0x0D6F), (0x0DE6, 0x0DEF), (0x0E50, 0x0E59), (0x0ED0, 0x0ED9),
   (0x0F20, 0x0F29), (0x1040, 0x1049), (0x1090, 0x1099), (0x17E0, 0x17E9),
   (0x1810, 0x1819), (0x1946, 0x194F), (0x19D0, 0x19D9), (0x1A80, 0x1A89),
   (0x1A90, 0x1A99), (0x1B50, 0x1B59), (0x1BB0, 0x1BB9), (0x1C40, 0x1C49),
   (0x1C50, 0x1C59), (0xA620, 0xA629), (0xA8D0, 0xA8D9), (0xA900, 0xA909),
   (0xA9D0, 0xA9D9), (0xA9F0, 0xA9F9), (0xAA50, 0xAA59), (0xABF0, 0xABF9),
   (0xFF10, 0xFF19), (0x104A0, 0x104A9), (0x10D30, 0x10D39),
   (0x11066, 0x1106F), (0x110F0, 0x110F9), (0x11136, 0x1113F),
   (0x111D0, 0x111D9), (0x112F0, 0x112F9), (0x11450, 0x11459),
   (0x114D0, 0x114D9), (0x11650, 0x11659), (0x116C0, 0x116C9),
   (0x11730, 0x11739), (0x118E0, 0x118E9), (0x11C50, 0x11C59),
   (0x11D50, 0x11D59), (0x11DA0, 0x11DA9), (0x16A60, 0x16A69),
   (0x16B50, 0x16B59), (0x1D7CE, 0x1D7FF), (0x1E140, 0x1E149),
   (0x1E2F0, 0x1E2F9), (0x1E950, 0x1E959)]

/-- Character class `\d` of the blame-line regex: any Unicode decimal digit
(`\p{Nd}`), the regex crate's default. -/
def isRegexDigit (c : Char) : Bool :=
  ndRanges.any (fun p => p.1 ≤ c.toNat && c.toNat ≤ p.2)

/-- Maximal run of characters of class `p` at the head of the list (a greedy
`\d+` when `p` is the digit class), together with the remainder. -/
def takeRun (p : Char → Bool) : List Char → List Char × List Char
  | [] => ([], [])
  | c :: cs =>
    if p c then
      let q := takeRun p cs
      (c :: q.1, q.2)
    else ([], c :: cs)

/-- Value of a decimal digit string (the value `str::parse::<usize>` would
produce when it does not overflow). -/
def digitsToNat (ds : List Char) : Nat :=
  ds.foldl (fun acc c => 10 * acc + (c.toNat - 48)) 0

def USIZE_MAX : Nat := 2 ^ 64 - 1

/-- Consume one expected literal character. -/
def expectChar (c : Char) : List Char → Option (List Char)
  | [] => none
  | x :: xs => if x = c then some xs else none

/-- Matching of `BLAME_LINE_REGEX`, i.e. `^([0-9a-f]{40}) (\d+) \d+ \d+\n$`,
against a whole line; returns the two capture groups (the 40 hex characters
and the first digit field).  `{40}` consumes exactly the first 40 characters,
and each greedy `\d+` is the maximal run of Unicode decimal digits (the
following character must then be the literal space / newline, never a digit,
so no backtracking alternative exists): the match is deterministic. -/
def blameLineCaptures (cs : List Char) : Option (List Char × List Char) :=
  let hex := cs.take 40
  let rest := cs.drop 40
  if hex.length = 40 && hex.all isHexLower then
    match expectChar ' ' rest with
    | none => none
    | some r1 =>
      let p1 := takeRun isRegexDigit r1
      if p1.1.isEmpty then none
      else
        match expectChar ' ' p1.2 with
        | none => none
        | some r3 =>
          let p2 := takeRun isRegexDigit r3
          if p2.1.isEmpty then none
          else
            match expectChar ' ' p2.2 with
            | none => none
            | some r5 =>
              let p3 := takeRun isRegexDigit r5
              if p3.1.isEmpty then none
              else if p3.2 = ['\n'] then some (hex, p1.1) else none
  else none

/-- A parsed blame record: `struct BlameLine { oid, original_lineno }`. -/
structure BlameLine where
  oid : Oid
  original_lineno : Nat
deriving DecidableEq, Repr

/-- `BlameLine::new`: match the regex; on a match build the record with
`Oid::from_str(&captures[1]).unwrap()` (always succeeds on 40 hex chars) and
`captures[2].parse::<usize>().unwrap()`, which panics unless every captured
digit is an ASCII `0-9` (`parse` rejects any other Unicode digit as
`InvalidDigit`) and the decimal value fits in `usize`. -/
def BlameLine.new (line : String) : RustOutcome (Option BlameLine) :=
  match blameLineCaptures line.data with
  | none => RustOutcome.ok none
  | some (hex, d1) =>
    if d1.all isAsciiDigit ∧ digitsToNat d1 ≤ USIZE_MAX then
      RustOutcome.ok (some ⟨⟨String.mk hex⟩, digitsToNat d1⟩)
    else RustOutcome.panicked

/-- One observable `read_line` step on the child's stdout: a chunk of text
(`num_bytes` = its length) or an I/O failure. -/
inductive ReadEvent where
  | line : String → ReadEvent
  | ioError : ReadEvent
deriving DecidableEq, Repr

/-- The child's stderr as observed through one `read_to_string` drain. -/
inductive StderrState where
  | ok : String → StderrState
  | ioError : StderrState
deriving DecidableEq, Repr

/-- `struct GitBlame`: the stdout reader, the stderr reader and the
line-number → revision cache (the `Child` handle is modelled separately,
only `Drop` touches it). -/
structure GitBlame where
  reader : List ReadEvent
  error_reader : StderrState
  line_map : List (Nat × Oid)
deriving DecidableEq, Repr

/-- `HashMap::get`: most recent binding of the key. -/
def mapGet (m : List (Nat × Oid)) (k : Nat) : Option Oid :=
  match m.find? (fun p => p.1 == k) with
  | some p => some p.2
  | none => none

/-- `HashMap::insert`: overwrite (prepend; lookup sees the newest binding). -/
def mapInsert (m : List (Nat × Oid)) (k : Nat) (v : Oid) : List (Nat × Oid) :=
  (k, v) :: m

/-- How the `while let Ok(num_bytes) = reader.read_line(&mut line)` loop of
`scan_for_line` ended. -/
inductive ScanExit where
  | found : Oid → ScanExit
  | eof : ScanExit
  | readErr : ScanExit
  | panicked : ScanExit
deriving DecidableEq, Repr

/-- The stdout loop of `GitBlame::scan_for_line`: read a line at a time;
`Ok(0)` breaks; `Err(_)` ends the `while let`; a parsed record is inserted
into the map and, when its original line number is the requested one, the
scan returns it at once.  Returns the remaining stdout, the updated map and
the way the loop ended. -/
def scanLoop (lineno : Nat) :
    List ReadEvent → List (Nat × Oid) → List ReadEvent × List (Nat × Oid) × ScanExit
  | [], m => ([], m, ScanExit.eof)
  | ReadEvent.ioError :: rest, m => (rest, m, ScanExit.readErr)
  | ReadEvent.line str :: rest, m =>
    if str.isEmpty then (rest, m, ScanExit.eof)
    else
      match BlameLine.new str with
      | RustOutcome.panicked => (rest, m, ScanExit.panicked)
      | RustOutcome.ok none => scanLoop lineno rest m
      | RustOutcome.ok (some bl) =>
        let m' := mapInsert m bl.original_lineno bl.oid
        if bl.original_lineno = lineno then (rest, m', ScanExit.found bl.oid)
        else scanLoop lineno rest m'

/-- `GitBlame::scan_for_line`: run the stdout loop; on early return hand the
found oid back; otherwise (end-of-stream or a swallowed `read_line` error)
drain stderr with `read_to_string(..)?` — an stderr I/O failure propagates,
text means `Err(BlameError(text))`, no bytes means `Ok(None)`. -/
def GitBlame.scan_for_line (g : GitBlame) (lineno : Nat) :
    RustOutcome (RResult ErrorKind (Option Oid) × GitBlame) :=
  match scanLoop lineno g.reader g.line_map with
  | (_, _, ScanExit.panicked) => RustOutcome.panicked
  | (rest, m, ScanExit.found oid) =>
    RustOutcome.ok (RResult.ok (some oid), ⟨rest, g.error_reader, m⟩)
  | (rest, m, ScanExit.eof) | (rest, m, ScanExit.readErr) =>
    match g.error_reader with
    | StderrState.ioError =>
      RustOutcome.ok (RResult.err ErrorKind.IoError, ⟨rest, StderrState.ioError, m⟩)
    | StderrState.ok txt =>
      if txt.isEmpty then RustOutcome.ok (RResult.ok none, ⟨rest, StderrState.ok "", m⟩)
      else RustOutcome.ok (RResult.err (ErrorKind.BlameError txt), ⟨rest, StderrState.ok "", m⟩)

/-- `GitBlame::get_line`: answer from the cache when possible, otherwise scan
forward. -/
def GitBlame.get_line (g : GitBlame) (lineno : Nat) :
    RustOutcome (RResult ErrorKind (Option Oid) × GitBlame) :=
  match mapGet g.line_map lineno with
  | some l => RustOutcome.ok (RResult.ok (some l), g)
  | none => g.scan_for_line lineno

/-- `std::process::Stdio` configuration of a child stream. -/
inductive Stdio where
  | inherited : Stdio
  | piped : Stdio
deriving DecidableEq, Repr

/-- The parts of `std::process::Command` that `GitBlame::new` configures. -/
structure Command where
  program : String
  cwd : Option String
  args : List String
  stdout_cfg : Stdio
  stderr_cfg : Stdio
deriving DecidableEq, Repr

def Command.new (p : String) : Command :=
  ⟨p, none, [], Stdio.inherited, Stdio.inherited⟩

def Command.current_dir (c : Command) (d : String) : Command :=
  { c with cwd := some d }

def Command.arg (c : Command) (a : String) : Command :=
  { c with args := c.args ++ [a] }

def Command.stdout (c : Command) (s : Stdio) : Command :=
  { c with stdout_cfg := s }

def Command.stderr (c : Command) (s : Stdio) : Command :=
  { c with stderr_cfg := s }

/-- The command `GitBlame::new` builds and spawns (git_blame.rs lines 31-44),
one builder call per source line. -/
def GitBlame.new_command (repo_path : String) (parent : Oid) (old_path : String)
    (churn_cutoff : Nat) : Command :=
  Command.new "git"
  |>.current_dir repo_path
  |>.arg "blame"
  |>.arg parent.to_string
  |>.arg "-s"
  |>.arg "-l"
  |>.arg "-p"
  |>.arg "--incremental"
  |>.arg ("--since=" ++ toString churn_cutoff ++ ".days")
  |>.arg "--"
  |>.arg old_path
  |>.stdout Stdio.piped
  |>.stderr Stdio.piped

/-- A child process handle as `Drop` sees it: whether `kill` and `wait` will
succeed, and whether the process is still alive / already reaped. -/
structure Child where
  kill_ok : Bool
  wait_ok : Bool
  alive : Bool
  reaped : Bool
deriving DecidableEq, Repr

/-- `Child::kill`. -/
def Child.kill (c : Child) : RResult Unit Child :=
  if c.kill_ok then RResult.ok { c with alive := false } else RResult.err ()

/-- `Child::wait`. -/
def Child.wait (c : Child) : RResult Unit Child :=
  if c.wait_ok then RResult.ok { c with reaped := true } else RResult.err ()

/-- `Result::expect`: unwrap or panic. -/
def expectOutcome {α : Type} (r : RResult Unit α) : RustOutcome α :=
  match r with
  | RResult.ok a => RustOutcome.ok a
  | RResult.err _ => RustOutcome.panicked

/-- `impl Drop for GitBlame`: `child.kill().expect(..); child.wait().expect(..)`. -/
def GitBlame.drop (c : Child) : RustOutcome Child :=
  match expectOutcome c.kill with
  | RustOutcome.panicked => RustOutcome.panicked
  | RustOutcome.ok c1 =>
    match expectOutcome c1.wait with
    | RustOutcome.panicked => RustOutcome.panicked
    | RustOutcome.ok c2 => RustOutcome.ok c2

/-- Modelled from the spec (§4.2), for refinement of the parser: the record
shape named by the specification, with its four fields exhibited — a
40-character lowercase hexadecimal revision identifier, a single space, a
nonempty decimal original-line-number, a single space, a nonempty decimal
final-line-number, a single space, a nonempty decimal count, and a
terminating newline. -/
def specSplit (s : String) (hex d1 d2 d3 : List Char) : Prop :=
  s.data = hex ++ [' '] ++ d1 ++ [' '] ++ d2 ++ [' '] ++ d3 ++ ['\n'] ∧
  hex.length = 40 ∧ (∀ c ∈ hex, isHexLower c = true) ∧
  d1 ≠ [] ∧ (∀ c ∈ d1, isAsciiDigit c = true) ∧
  d2 ≠ [] ∧ (∀ c ∈ d2, isAsciiDigit c = true) ∧
  d3 ≠ [] ∧ (∀ c ∈ d3, isAsciiDigit c = true)

/-- Modelled from the spec: a string is exactly the one record shape the
specification describes. -/
def specRecordShape (s : String) : Prop :=
  ∃ hex d1 d2 d3, specSplit s hex d1 d2 d3

/-- The record shape the regex actually recognizes: like `specSplit`, except
that the three numeric fields are nonempty runs of the regex's Unicode digit
class `\d` (`\p{Nd}`), not only of the spec's ASCII decimals. -/
def regexSplit (s : String) (hex d1 d2 d3 : List Char) : Prop :=
  s.data = hex ++ [' '] ++ d1 ++ [' '] ++ d2 ++ [' '] ++ d3 ++ ['\n'] ∧
  hex.length = 40 ∧ (∀ c ∈ hex, isHexLower c = true) ∧
  d1 ≠ [] ∧ (∀ c ∈ d1, isRegexDigit c = true) ∧
  d2 ≠ [] ∧ (∀ c ∈ d2, isRegexDigit c = true) ∧
  d3 ≠ [] ∧ (∀ c ∈ d3, isRegexDigit c = true)

/-- No two successfully parsed records anywhere in an event list assign
different revisions to the same original line number. -/
def streamConsistent (events : List ReadEvent) : Prop :=
  ∀ s1 s2 bl1 bl2, ReadEvent.line s1 ∈ events → ReadEvent.line s2 ∈ events →
    BlameLine.new s1 = RustOutcome.ok (some bl1) →
    BlameLine.new s2 = RustOutcome.ok (some bl2) →
    bl1.original_lineno = bl2.original_lineno → bl1.oid = bl2.oid

/-- Every cached binding agrees with every record still to come in the event
list. -/
def mapAgrees (m : List (Nat × Oid)) (events : List ReadEvent) : Prop :=
  ∀ k v s bl, mapGet m k = some v → ReadEvent.line s ∈ events →
    BlameLine.new s = RustOutcome.ok (some bl) → bl.original_lineno = k →
    bl.oid = v

/-- Session invariant for the cache-stability claims: the remaining stream is
consistent and the cache agrees with it. -/
def SessionInv (g : GitBlame) : Prop :=
  streamConsistent g.reader ∧ mapAgrees g.line_map g.reader

/-- An output event the forward scan steps over without stopping: a nonempty
text line that either parses to no record or to a record for a different
original line number. -/
def skippedEvent (lineno : Nat) (e : ReadEvent) : Prop :=
  ∃ s, e = ReadEvent.line s ∧ s.isEmpty = false ∧
    (BlameLine.new s = RustOutcome.ok none ∨
     ∃ bl, BlameLine.new s = RustOutcome.ok (some bl) ∧ bl.original_lineno ≠ lineno)

/-- 40 hex characters, for concrete test lines. -/
def hexA : List Char := List.replicate 40 'a'

def hexB : List Char := List.replicate 40 'b'

def hexC : List Char := List.replicate 40 'c'

def oidA : Oid := ⟨String.mk hexA⟩

def oidB : Oid := ⟨String.mk hexB⟩

def oidC : Oid := ⟨String.mk hexC⟩

/-- A well-formed blame record line for a given hex identifier and original
line number. -/
def recLine (hex : List Char) (n : Nat) : String :=
  String.mk (hex ++ (" " ++ toString n ++ " 1 1\n").data)

/-- A line matching the regex whose original-line-number field `2^64`
overflows `usize`. -/
def bigLine : String :=
  String.mk (hexA ++ " 18446744073709551616 1 1\n".data)

/-- A line the regex matches whose final-line-number field is the
Arabic-Indic digit three (U+0663): not the spec's ASCII shape, yet the
parser produces a record (`parse` only ever sees the first field). -/
def uniLine : String :=
  String.mk (hexA ++ [' ', '1', ' ', Char.ofNat 0x663, ' ', '1', '\n'])

/-- A line the regex matches whose original-line-number field is the
Arabic-Indic digit three: `parse::<usize>()` rejects it (`InvalidDigit`) and
the unwrap panics with no overflow involved. -/
def uniLine2 : String :=
  String.mk (hexA ++ [' ', Char.ofNat 0x663, ' ', '1', ' ', '1', '\n'])

/-! ## Theorems -/

theorem mapGet_cons (k : Nat) (v : Oid) (m : List (Nat × Oid)) (j : Nat) :
    mapGet (mapInsert m k v) j = if k = j then some v else mapGet m j := by
  by_cases h : k = j
  · simp [mapInsert, mapGet, List.find?, h]
  · have hb : (k == j) = false := beq_eq_false_iff_ne.mpr h
    simp [mapInsert, mapGet, List.find?, hb, h]

theorem get_line_of_mapGet (g : GitBlame) (k : Nat) (v : Oid)
    (h : mapGet g.line_map k = some v) :
    g.get_line k = RustOutcome.ok (RResult.ok (some v), g) := by
  simp [GitBlame.get_line, h]

/-- C6: when the requested line number is already present in the session's
cached mapping, `get_line` returns the cached revision immediately and the
session — in particular both stream cursors — is returned unchanged, so no
read is performed on either subprocess stream. -/
theorem get_line_cache_hit (g : GitBlame) (n : Nat) (r : Oid)
    (h : mapGet g.line_map n = some r) :
    g.get_line n = RustOutcome.ok (RResult.ok (some r), g) :=
  get_line_of_mapGet g n r h

/-- Witness for C6 at a concrete session whose streams would error or parse
records if they were touched. -/
theorem get_line_cache_hit_witness :
    mapGet [(1, oidA)] 1 = some oidA ∧
    GitBlame.get_line ⟨[ReadEvent.ioError], StderrState.ioError, [(1, oidA)]⟩ 1 =
      RustOutcome.ok (RResult.ok (some oidA),
        ⟨[ReadEvent.ioError], StderrState.ioError, [(1, oidA)]⟩) :=
  ⟨by decide, get_line_cache_hit ⟨[ReadEvent.ioError], StderrState.ioError, [(1, oidA)]⟩ 1 oidA (by decide)⟩

/-- C8: construction builds (and spawns) exactly one git invocation with, in
order, `blame`, the ancestor revision rendered as text, `-s`, `-l`, `-p`,
`--incremental`, `--since=<churn_cutoff>.days`, `--`, the file path; the
repository's on-disk location is the working directory and both standard
streams are captured as pipes. -/
theorem new_command_spec (repo_path : String) (parent : Oid) (old_path : String)
    (churn_cutoff : Nat) :
    GitBlame.new_command repo_path parent old_path churn_cutoff =
      { program := "git"
        cwd := some repo_path
        args := ["blame", parent.to_string, "-s", "-l", "-p", "--incremental",
          "--since=" ++ toString churn_cutoff ++ ".days", "--", old_path]
        stdout_cfg := Stdio.piped
        stderr_cfg := Stdio.piped } := rfl

/-- C9: the `Drop` handler (which Rust runs on every exit path out of the
session's scope) unconditionally kills the child and then waits on it — on
success the process is no longer alive and has been reaped, and a failure of
either cleanup step is a panic (fatal), never graceful degradation. -/
theorem drop_kills_then_reaps (c : Child) :
    (c.kill_ok = true → c.wait_ok = true →
      GitBlame.drop c = RustOutcome.ok { c with alive := false, reaped := true }) ∧
    (c.kill_ok = false ∨ c.wait_ok = false →
      GitBlame.drop c = RustOutcome.panicked) := by
  rcases c with ⟨ko, wo, al, rp⟩
  cases ko <;> cases wo <;>
    simp [GitBlame.drop, Child.kill, Child.wait, expectOutcome]

/-- Witness for C9: a live, unreaped child whose kill and wait succeed is
killed and reaped. -/
theorem drop_kills_then_reaps_witness :
    GitBlame.drop ⟨true, true, true, false⟩ = RustOutcome.ok ⟨true, true, false, true⟩ :=
  (drop_kills_then_reaps ⟨true, true, true, false⟩).1 rfl rfl

/-- C1: on a cache miss, when the forward scan over standard output reaches
end-of-stream without finding the requested line, `get_line` drains standard
error to completion; if stderr produced any bytes the lookup fails with
`BlameError` carrying exactly that text, and if stderr was empty it succeeds
with no result. -/
theorem get_line_eof_drains (g : GitBlame) (n : Nat) (rest : List ReadEvent)
    (m : List (Nat × Oid)) (txt : String)
    (hmiss : mapGet g.line_map n = none)
    (hscan : scanLoop n g.reader g.line_map = (rest, m, ScanExit.eof))
    (herr : g.error_reader = StderrState.ok txt) :
    g.get_line n =
      RustOutcome.ok
        ((if txt.isEmpty then RResult.ok none
          else RResult.err (ErrorKind.BlameError txt)),
         ⟨rest, StderrState.ok "", m⟩) := by
  unfold GitBlame.get_line
  rw [hmiss]
  unfold GitBlame.scan_for_line
  rw [hscan, herr]
  by_cases ht : txt.isEmpty <;> simp [ht]

/-- Witness for C1: scanning past a non-record header line to end-of-stream
with diagnostic text on stderr yields a `BlameError` with exactly that text. -/
theorem get_line_eof_drains_witness :
    GitBlame.get_line
        ⟨[ReadEvent.line "author Jane Doe\n"], StderrState.ok "fatal: no such path\n", []⟩ 1 =
      RustOutcome.ok (RResult.err (ErrorKind.BlameError "fatal: no such path\n"),
        ⟨[], StderrState.ok "", []⟩) := by
  have h := get_line_eof_drains
    ⟨[ReadEvent.line "author Jane Doe\n"], StderrState.ok "fatal: no such path\n", []⟩ 1
    [] [] "fatal: no such path\n" (by decide) (by decide) rfl
  simpa using h

/-- Counterexample to C7 as stated: an I/O failure while reading standard
output is swallowed by the `while let Ok(..)` loop; with empty stderr the
lookup reports success `Ok(None)` instead of propagating a generic I/O
error. -/
theorem read_error_swallowed_counterexample :
    GitBlame.get_line ⟨[ReadEvent.ioError], StderrState.ok "", []⟩ 1 =
      RustOutcome.ok (RResult.ok none, ⟨[], StderrState.ok "", []⟩) := by decide

/-- C7 (amended): an I/O failure while reading standard error propagates to
the caller as a generic I/O error; an I/O failure while reading standard
output is not propagated — it ends the forward scan exactly like
end-of-stream, after which the stderr drain decides the outcome. -/
theorem get_line_stream_errors (g : GitBlame) (n : Nat) (rest : List ReadEvent)
    (m : List (Nat × Oid)) (ex : ScanExit)
    (hmiss : mapGet g.line_map n = none)
    (hscan : scanLoop n g.reader g.line_map = (rest, m, ex))
    (hex : ex = ScanExit.eof ∨ ex = ScanExit.readErr) :
    (g.error_reader = StderrState.ioError →
      g.get_line n = RustOutcome.ok (RResult.err ErrorKind.IoError,
        ⟨rest, StderrState.ioError, m⟩)) ∧
    (∀ txt, g.error_reader = StderrState.ok txt →
      g.get_line n = RustOutcome.ok
        ((if txt.isEmpty then RResult.ok none
          else RResult.err (ErrorKind.BlameError txt)),
         ⟨rest, StderrState.ok "", m⟩)) := by
  constructor
  · intro herr
    unfold GitBlame.get_line
    rw [hmiss]
    unfold GitBlame.scan_for_line
    rcases hex with rfl | rfl <;> rw [hscan, herr]
  · intro txt herr
    unfold GitBlame.get_line
    rw [hmiss]
    unfold GitBlame.scan_for_line
    rcases hex with rfl | rfl <;> rw [hscan, herr] <;>
      (by_cases ht : txt.isEmpty <;> simp [ht])

/-- Witness for C7 (amended): a failing stderr read surfaces as a generic
I/O error after a failing stdout read ended the scan. -/
theorem get_line_stream_errors_witness :
    GitBlame.get_line ⟨[ReadEvent.ioError], StderrState.ioError, []⟩ 1 =
      RustOutcome.ok (RResult.err ErrorKind.IoError, ⟨[], StderrState.ioError, []⟩) :=
  (get_line_stream_errors ⟨[ReadEvent.ioError], StderrState.ioError, []⟩ 1
    [] [] ScanExit.readErr (by decide) (by decide) (Or.inr rfl)).1 rfl

theorem scanLoop_first_match (lineno : Nat) (str : String) (post : List ReadEvent)
    (bl : BlameLine)
    (hstr : BlameLine.new str = RustOutcome.ok (some bl))
    (hne : str.isEmpty = false)
    (hbl : bl.original_lineno = lineno) :
    ∀ (pre : List ReadEvent) (m : List (Nat × Oid)),
      (∀ e ∈ pre, skippedEvent lineno e) →
      ∃ m', scanLoop lineno (pre ++ ReadEvent.line str :: post) m =
        (post, m', ScanExit.found bl.oid) := by
  intro pre
  induction pre with
  | nil =>
    intro m _
    refine ⟨mapInsert m bl.original_lineno bl.oid, ?_⟩
    simp [scanLoop, hne, hstr, hbl]
  | cons e t ih =>
    intro m hall
    obtain ⟨s, rfl, hsne, hcase⟩ := hall e (List.mem_cons_self e t)
    have ht : ∀ e ∈ t, skippedEvent lineno e := fun e he => hall e (List.mem_cons_of_mem _ he)
    rcases hcase with hnone | ⟨bl', hbl', hne'⟩
    · simpa [scanLoop, hsne, hnone] using ih m ht
    · simpa [scanLoop, hsne, hbl', hne'] using ih (mapInsert m bl'.original_lineno bl'.oid) ht

/-- C2: on a cache miss the forward scan stops at the first successfully
parsed record whose original line number equals the requested one, returning
that record's revision immediately: the remaining standard-output stream is
exactly the suffix after that record (no further line is read) and standard
error is untouched. -/
theorem get_line_first_match (g : GitBlame) (lineno : Nat) (pre post : List ReadEvent)
    (str : String) (bl : BlameLine)
    (hmiss : mapGet g.line_map lineno = none)
    (hreader : g.reader = pre ++ ReadEvent.line str :: post)
    (hpre : ∀ e ∈ pre, skippedEvent lineno e)
    (hstr : BlameLine.new str = RustOutcome.ok (some bl))
    (hne : str.isEmpty = false)
    (hbl : bl.original_lineno = lineno) :
    ∃ m', g.get_line lineno =
      RustOutcome.ok (RResult.ok (some bl.oid), ⟨post, g.error_reader, m'⟩) := by
  obtain ⟨m', hm'⟩ := scanLoop_first_match lineno str post bl hstr hne hbl pre g.line_map hpre
  refine ⟨m', ?_⟩
  unfold GitBlame.get_line
  rw [hmiss]
  unfold GitBlame.scan_for_line
  rw [hreader, hm']

/-- Witness for C2: the scan skips a header line, stops at the first record
for line 1 and leaves a later (conflicting) record for line 1 unread. -/
theorem get_line_first_match_witness :
    ∃ m' : List (Nat × Oid), GitBlame.get_line
        ⟨[ReadEvent.line "author Jane Doe\n", ReadEvent.line (recLine hexA 1),
          ReadEvent.line (recLine hexB 1)], StderrState.ok "oops", []⟩ 1 =
      RustOutcome.ok (RResult.ok (some oidA),
        ⟨[ReadEvent.line (recLine hexB 1)], StderrState.ok "oops", m'⟩) := by
  have h := get_line_first_match
    ⟨[ReadEvent.line "author Jane Doe\n", ReadEvent.line (recLine hexA 1),
      ReadEvent.line (recLine hexB 1)], StderrState.ok "oops", []⟩ 1
    [ReadEvent.line "author Jane Doe\n"] [ReadEvent.line (recLine hexB 1)]
    (recLine hexA 1) ⟨oidA, 1⟩ (by decide) rfl
    (by
      intro e he
      simp only [List.mem_singleton] at he
      subst he
      exact ⟨"author Jane Doe\n", rfl, by decide, Or.inl (by decide)⟩)
    (by decide) (by decide) rfl
  simpa using h

theorem takeRun_sound (p : Char → Bool) : ∀ (l d r : List Char), takeRun p l = (d, r) →
    l = d ++ r ∧ (∀ c ∈ d, p c = true) ∧
    ∀ c t, r = c :: t → p c = false := by
  intro l
  induction l with
  | nil =>
    intro d r h
    simp only [takeRun, Prod.mk.injEq] at h
    obtain ⟨rfl, rfl⟩ := h.symm
    exact ⟨rfl, by simp, by simp⟩
  | cons c cs ih =>
    intro d r h
    by_cases hc : p c = true
    · simp only [takeRun, hc, if_true, Prod.mk.injEq] at h
      obtain ⟨rfl, rfl⟩ := h.symm
      obtain ⟨h1, h2, h3⟩ := ih (takeRun p cs).1 (takeRun p cs).2 rfl
      refine ⟨by rw [List.cons_append, ← h1], ?_, h3⟩
      intro x hx
      rcases List.mem_cons.mp hx with rfl | hx
      · exact hc
      · exact h2 x hx
    · have hc' : p c = false := by simpa using hc
      simp only [takeRun, hc', Bool.false_eq_true, if_false, Prod.mk.injEq] at h
      obtain ⟨rfl, rfl⟩ := h.symm
      refine ⟨rfl, by simp, ?_⟩
      intro x t hxt
      obtain ⟨rfl, rfl⟩ : x = c ∧ t = cs := by
        constructor <;> injection hxt <;> simp_all
      exact hc'

theorem takeRun_append (p : Char → Bool) : ∀ (d r : List Char),
    (∀ c ∈ d, p c = true) →
    (∀ c t, r = c :: t → p c = false) →
    takeRun p (d ++ r) = (d, r) := by
  intro d
  induction d with
  | nil =>
    intro r _ hr
    cases r with
    | nil => rfl
    | cons c t => simp [takeRun, hr c t rfl]
  | cons c d ih =>
    intro r hd hr
    have hc : p c = true := hd c (List.mem_cons_self c d)
    have hrec := ih r (fun x hx => hd x (List.mem_cons_of_mem _ hx)) hr
    simp [takeRun, hc, hrec]

theorem expectChar_eq_some (c : Char) (l t : List Char) :
    expectChar c l = some t ↔ l = c :: t := by
  cases l with
  | nil => simp [expectChar]
  | cons x xs =>
    by_cases hx : x = c
    · subst hx
      simp [expectChar]
    · simp [expectChar, hx, List.cons.injEq]

theorem isEmpty_false_ne_nil (l : List Char) (h : l.isEmpty = false) : l ≠ [] := by
  cases l with
  | nil => exact absurd h (by simp)
  | cons a t => simp

theorem blameLineCaptures_sound (cs hex d1 : List Char)
    (h : blameLineCaptures cs = some (hex, d1)) :
    ∃ d2 d3,
      cs = hex ++ [' '] ++ d1 ++ [' '] ++ d2 ++ [' '] ++ d3 ++ ['\n'] ∧
      hex.length = 40 ∧ (∀ c ∈ hex, isHexLower c = true) ∧
      d1 ≠ [] ∧ (∀ c ∈ d1, isRegexDigit c = true) ∧
      d2 ≠ [] ∧ (∀ c ∈ d2, isRegexDigit c = true) ∧
      d3 ≠ [] ∧ (∀ c ∈ d3, isRegexDigit c = true) := by
  simp only [blameLineCaptures] at h
  split at h
  case isFalse => exact absurd h (by simp)
  case isTrue hcond =>
    rw [Bool.and_eq_true] at hcond
    obtain ⟨hlen, hall⟩ := hcond
    have hlen' : (cs.take 40).length = 40 := of_decide_eq_true hlen
    have hall' : ∀ c ∈ cs.take 40, isHexLower c = true := by
      simpa [List.all_eq_true] using hall
    rcases he1 : expectChar ' ' (cs.drop 40) with _ | r1
    · rw [he1] at h
      exact absurd h (by simp)
    rw [he1] at h
    dsimp only at h
    obtain ⟨d1x, r2, h1⟩ : ∃ a b, takeRun isRegexDigit r1 = (a, b) := ⟨_, _, rfl⟩
    rw [h1] at h
    dsimp only at h
    split at h
    case isTrue => exact absurd h (by simp)
    case isFalse hne1 =>
      rcases he2 : expectChar ' ' r2 with _ | r3
      · rw [he2] at h
        exact absurd h (by simp)
      rw [he2] at h
      dsimp only at h
      obtain ⟨d2x, r4, h2⟩ : ∃ a b, takeRun isRegexDigit r3 = (a, b) := ⟨_, _, rfl⟩
      rw [h2] at h
      dsimp only at h
      split at h
      case isTrue => exact absurd h (by simp)
      case isFalse hne2 =>
        rcases he3 : expectChar ' ' r4 with _ | r5
        · rw [he3] at h
          exact absurd h (by simp)
        rw [he3] at h
        dsimp only at h
        obtain ⟨d3x, r6, h3⟩ : ∃ a b, takeRun isRegexDigit r5 = (a, b) := ⟨_, _, rfl⟩
        rw [h3] at h
        dsimp only at h
        split at h
        case isTrue => exact absurd h (by simp)
        case isFalse hne3 =>
          split at h
          case isFalse => exact absurd h (by simp)
          case isTrue hnl =>
            obtain ⟨rfl, rfl⟩ : cs.take 40 = hex ∧ d1x = d1 := by
              simpa using h
            obtain ⟨e1, hd1, _⟩ := takeRun_sound isRegexDigit r1 d1x r2 h1
            obtain ⟨e2, hd2, _⟩ := takeRun_sound isRegexDigit r3 d2x r4 h2
            obtain ⟨e3, hd3, _⟩ := takeRun_sound isRegexDigit r5 d3x r6 h3
            have hr2 : r2 = ' ' :: r3 := (expectChar_eq_some _ _ _).mp he2
            have hr4 : r4 = ' ' :: r5 := (expectChar_eq_some _ _ _).mp he3
            have hdr : cs.drop 40 = ' ' :: r1 := (expectChar_eq_some _ _ _).mp he1
            refine ⟨d2x, d3x, ?_, hlen', hall', ?_, hd1, ?_, hd2, ?_, hd3⟩
            · have hcs : cs = cs.take 40 ++ cs.drop 40 :=
                (List.take_append_drop 40 cs).symm
              conv_lhs => rw [hcs]
              rw [hdr, e1, hr2, e2, hr4, e3, hnl]
              simp
            · exact isEmpty_false_ne_nil _ (by simpa using hne1)
            · exact isEmpty_false_ne_nil _ (by simpa using hne2)
            · exact isEmpty_false_ne_nil _ (by simpa using hne3)

theorem blameLineCaptures_complete (hex d1 d2 d3 : List Char)
    (hlen : hex.length = 40) (hhex : ∀ c ∈ hex, isHexLower c = true)
    (h1 : d1 ≠ []) (hd1 : ∀ c ∈ d1, isRegexDigit c = true)
    (h2 : d2 ≠ []) (hd2 : ∀ c ∈ d2, isRegexDigit c = true)
    (h3 : d3 ≠ []) (hd3 : ∀ c ∈ d3, isRegexDigit c = true) :
    blameLineCaptures (hex ++ [' '] ++ d1 ++ [' '] ++ d2 ++ [' '] ++ d3 ++ ['\n']) =
      some (hex, d1) := by
  have hsp : ∀ (t : List Char) (c : Char) (u : List Char),
      (' ' :: t) = c :: u → isRegexDigit c = false := by
    intro t c u h
    injection h with h1 h2
    rw [← h1]
    decide
  have hrest :
      (hex ++ [' '] ++ d1 ++ [' '] ++ d2 ++ [' '] ++ d3 ++ ['\n']) =
        hex ++ (' ' :: (d1 ++ (' ' :: (d2 ++ (' ' :: (d3 ++ ['\n'])))))) := by
    simp
  rw [hrest]
  have htake : (hex ++ (' ' :: (d1 ++ (' ' :: (d2 ++ (' ' :: (d3 ++ ['\n']))))))).take 40 = hex := by
    rw [← hlen]
    exact List.take_left hex _
  have hdrop : (hex ++ (' ' :: (d1 ++ (' ' :: (d2 ++ (' ' :: (d3 ++ ['\n']))))))).drop 40 =
      ' ' :: (d1 ++ (' ' :: (d2 ++ (' ' :: (d3 ++ ['\n']))))) := by
    rw [← hlen]
    exact List.drop_left hex _
  have htd1 : takeRun isRegexDigit (d1 ++ (' ' :: (d2 ++ (' ' :: (d3 ++ ['\n']))))) =
      (d1, ' ' :: (d2 ++ (' ' :: (d3 ++ ['\n'])))) :=
    takeRun_append isRegexDigit d1 _ hd1 (hsp _)
  have htd2 : takeRun isRegexDigit (d2 ++ (' ' :: (d3 ++ ['\n']))) =
      (d2, ' ' :: (d3 ++ ['\n'])) :=
    takeRun_append isRegexDigit d2 _ hd2 (hsp _)
  have htd3 : takeRun isRegexDigit (d3 ++ ['\n']) = (d3, ['\n']) := by
    refine takeRun_append isRegexDigit d3 _ hd3 ?_
    intro c u h
    injection h with hh1 hh2
    rw [← hh1]
    decide
  have hallb : hex.all isHexLower = true :=
    List.all_eq_true.mpr fun x hx => hhex x hx
  have hne1 : d1.isEmpty = false := by
    cases d1 with
    | nil => exact absurd rfl h1
    | cons a t => rfl
  have hne2 : d2.isEmpty = false := by
    cases d2 with
    | nil => exact absurd rfl h2
    | cons a t => rfl
  have hne3 : d3.isEmpty = false := by
    cases d3 with
    | nil => exact absurd rfl h3
    | cons a t => rfl
  simp [blameLineCaptures, expectChar, htake, hdrop, htd1, htd2, htd3, hlen, hallb,
    hne1, hne2, hne3]

/-- C3 (amended): the parser produces a record exactly for strings of the
regex's shape — 40 lowercase hex characters, then space-separated nonempty
runs of Unicode decimal digits (the regex crate's `\d` is `\p{Nd}`, not just
ASCII) for original-line-number, final-line-number and count, terminated by
a newline — whose original-line-number field consists of ASCII digits only
and has decimal value fitting in `usize`; the record then carries the
identifier made of the 40 hex characters and that field's decimal value.
(On a regex-matching line whose second field has a non-ASCII digit or
exceeds `usize::MAX`, the parser instead panics in
`parse::<usize>().unwrap()`.) -/
theorem blameLine_new_iff (s : String) (r : BlameLine) :
    BlameLine.new s = RustOutcome.ok (some r) ↔
    ∃ hex d1 d2 d3, regexSplit s hex d1 d2 d3 ∧
      (∀ c ∈ d1, isAsciiDigit c = true) ∧ digitsToNat d1 ≤ USIZE_MAX ∧
      r.oid = ⟨String.mk hex⟩ ∧ r.original_lineno = digitsToNat d1 := by
  constructor
  · intro h
    unfold BlameLine.new at h
    rcases hc : blameLineCaptures s.data with _ | ⟨hex, d1⟩
    · rw [hc] at h; exact absurd h (by simp)
    · rw [hc] at h
      dsimp only at h
      split at h
      case isFalse => exact absurd h (by simp)
      case isTrue hfit =>
        obtain ⟨hasc, hle⟩ := hfit
        obtain ⟨d2, d3, hsplit, hlen, hhex, hne1, hd1, hne2, hd2, hne3, hd3⟩ :=
          blameLineCaptures_sound s.data hex d1 hc
        obtain rfl : r = ⟨⟨String.mk hex⟩, digitsToNat d1⟩ := by
          have := h
          injection this with h'
          injection h' with h''
          exact h''.symm
        exact ⟨hex, d1, d2, d3,
          ⟨hsplit, hlen, hhex, hne1, hd1, hne2, hd2, hne3, hd3⟩,
          by simpa [List.all_eq_true] using hasc, hle, rfl, rfl⟩
  · rintro ⟨hex, d1, d2, d3, ⟨hsplit, hlen, hhex, hne1, hd1, hne2, hd2, hne3, hd3⟩,
      hasc, hle, hoid, hno⟩
    have hc : blameLineCaptures s.data = some (hex, d1) := by
      rw [hsplit]
      exact blameLineCaptures_complete hex d1 d2 d3 hlen hhex hne1 hd1 hne2 hd2 hne3 hd3
    unfold BlameLine.new
    rw [hc]
    dsimp only
    rw [if_pos ⟨by simpa [List.all_eq_true] using hasc, hle⟩]
    rcases r with ⟨ro, rn⟩
    simp only at hoid hno
    rw [hoid, hno]

/-- The regex's `\d` is Unicode-aware: with an Arabic-Indic digit (U+0663)
in the third field the line is not the spec's ASCII shape, yet the real
parser — and this embedding — produces a record from it. -/
theorem blameLine_unicode_digit_record :
    BlameLine.new uniLine = RustOutcome.ok (some ⟨oidA, 1⟩) := by decide

/-- With an Arabic-Indic digit as the whole second field the regex matches
but `parse::<usize>()` fails with `InvalidDigit`, so the parser panics
without any overflow. -/
theorem blameLine_unicode_digit_panics :
    BlameLine.new uniLine2 = RustOutcome.panicked := by decide

/-- Counterexample to C3 as stated: this line is exactly the documented
shape (40 lowercase hex characters, space, decimal original-line-number
`2^64`, space, decimal, space, decimal, newline), yet the parser produces no
record — it panics on the `usize` overflow. -/
theorem blameLine_shape_counterexample :
    specRecordShape bigLine ∧ BlameLine.new bigLine = RustOutcome.panicked := by
  constructor
  · refine ⟨hexA, "18446744073709551616".data, ['1'], ['1'], ?_⟩
    unfold specSplit
    decide
  · decide

/-- C4 (failing input): on the shape-matching line whose original-line-number
field is `2^64`, `BlameLine::new` panics (`parse::<usize>().unwrap()`
overflows) instead of returning no record. -/
theorem blameLine_new_panics :
    BlameLine.new bigLine = RustOutcome.panicked := by decide

theorem streamConsistent_tail (e : ReadEvent) (t : List ReadEvent)
    (h : streamConsistent (e :: t)) : streamConsistent t :=
  fun s1 s2 bl1 bl2 h1 h2 =>
    h s1 s2 bl1 bl2 (List.mem_cons_of_mem _ h1) (List.mem_cons_of_mem _ h2)

theorem mapAgrees_tail (m : List (Nat × Oid)) (e : ReadEvent) (t : List ReadEvent)
    (h : mapAgrees m (e :: t)) : mapAgrees m t :=
  fun k v s bl hm hs => h k v s bl hm (List.mem_cons_of_mem _ hs)

theorem mapAgrees_insert (m : List (Nat × Oid)) (str : String) (t : List ReadEvent)
    (bl : BlameLine)
    (hsc : streamConsistent (ReadEvent.line str :: t))
    (hma : mapAgrees m (ReadEvent.line str :: t))
    (hbn : BlameLine.new str = RustOutcome.ok (some bl)) :
    mapAgrees (mapInsert m bl.original_lineno bl.oid) t := by
  intro k v s bl2 hm hs hp hl
  rw [mapGet_cons] at hm
  by_cases hk : bl.original_lineno = k
  · rw [if_pos hk] at hm
    obtain rfl : bl.oid = v := by injection hm
    exact (hsc str s bl bl2 (List.mem_cons_self _ _) (List.mem_cons_of_mem _ hs) hbn hp
      (hk.trans hl.symm)).symm
  · rw [if_neg hk] at hm
    exact mapAgrees_tail m _ t hma k v s bl2 hm hs hp hl

theorem mapGet_insert_preserves (m : List (Nat × Oid)) (str : String) (t : List ReadEvent)
    (bl : BlameLine)
    (hma : mapAgrees m (ReadEvent.line str :: t))
    (hbn : BlameLine.new str = RustOutcome.ok (some bl)) :
    ∀ k v, mapGet m k = some v → mapGet (mapInsert m bl.original_lineno bl.oid) k = some v := by
  intro k v hv
  rw [mapGet_cons]
  by_cases hk : bl.original_lineno = k
  · rw [if_pos hk]
    have hvv : bl.oid = v := hma k v str bl hv (List.mem_cons_self _ _) hbn hk
    rw [hvv]
  · rw [if_neg hk]
    exact hv

theorem scanLoop_preserves (lineno : Nat) :
    ∀ (events : List ReadEvent) (m : List (Nat × Oid)) (rest : List ReadEvent)
      (m' : List (Nat × Oid)) (ex : ScanExit),
      streamConsistent events → mapAgrees m events →
      scanLoop lineno events m = (rest, m', ex) →
      (∀ k v, mapGet m k = some v → mapGet m' k = some v) ∧
      streamConsistent rest ∧ mapAgrees m' rest ∧
      (∀ oid, ex = ScanExit.found oid → mapGet m' lineno = some oid) := by
  intro events
  induction events with
  | nil =>
    intro m rest m' ex hsc hma h
    simp only [scanLoop, Prod.mk.injEq] at h
    obtain ⟨rfl, rfl, rfl⟩ := h
    exact ⟨fun k v hv => hv, hsc, hma, fun oid hh => by cases hh⟩
  | cons e t ih =>
    intro m rest m' ex hsc hma h
    have hsct := streamConsistent_tail e t hsc
    have hmat := mapAgrees_tail m e t hma
    cases e with
    | ioError =>
      simp only [scanLoop, Prod.mk.injEq] at h
      obtain ⟨rfl, rfl, rfl⟩ := h
      exact ⟨fun k v hv => hv, hsct, hmat, fun oid hh => by cases hh⟩
    | line str =>
      by_cases hse : str.isEmpty = true
      · simp only [scanLoop, hse, if_true, Prod.mk.injEq] at h
        obtain ⟨rfl, rfl, rfl⟩ := h
        exact ⟨fun k v hv => hv, hsct, hmat, fun oid hh => by cases hh⟩
      · have hse' : str.isEmpty = false := by simpa using hse
        rcases hbn : BlameLine.new str with o | _
        · cases o with
          | none =>
            simp only [scanLoop, hse', Bool.false_eq_true, if_false, hbn] at h
            exact ih m rest m' ex hsct hmat h
          | some bl =>
            by_cases heq : bl.original_lineno = lineno
            · simp only [scanLoop, hse', Bool.false_eq_true, if_false, hbn, heq, if_true,
                Prod.mk.injEq] at h
              obtain ⟨rfl, rfl, rfl⟩ := h
              refine ⟨?_, hsct, ?_, ?_⟩
              · have := mapGet_insert_preserves m str t bl hma hbn
                rw [heq] at this
                exact this
              · have := mapAgrees_insert m str t bl hsc hma hbn
                rw [heq] at this
                exact this
              · intro oid hh
                obtain rfl : bl.oid = oid := by injection hh
                rw [← heq, mapGet_cons, if_pos rfl]
            · simp only [scanLoop, hse', Bool.false_eq_true, if_false, hbn, heq,
                Prod.mk.injEq] at h
              obtain ⟨p1, sc2, ma2, fnd⟩ :=
                ih (mapInsert m bl.original_lineno bl.oid) rest m' ex hsct
                  (mapAgrees_insert m str t bl hsc hma hbn) h
              exact ⟨fun k v hv =>
                  p1 k v (mapGet_insert_preserves m str t bl hma hbn k v hv),
                sc2, ma2, fnd⟩
        · simp only [scanLoop, hse', Bool.false_eq_true, if_false, hbn, Prod.mk.injEq] at h
          obtain ⟨rfl, rfl, rfl⟩ := h
          exact ⟨fun k v hv => hv, hsct, hmat, fun oid hh => by cases hh⟩

/-- C5 (amended): insertion during scanning is last-writer-wins
(`HashMap::insert` overwrites), so the claim holds under the stated
determinism of blame output: for a session whose remaining output never
assigns two different revisions to the same original line number and whose
cache agrees with that output, a `get_line` call never drops or changes an
existing cache binding, preserves that invariant, records its own successful
answer in the cache, and any cached binding is returned unchanged (with the
session untouched) by a subsequent call. -/
theorem get_line_cache_stable (g : GitBlame) (n : Nat)
    (res : RResult ErrorKind (Option Oid)) (g' : GitBlame)
    (hinv : SessionInv g)
    (hrun : g.get_line n = RustOutcome.ok (res, g')) :
    (∀ k v, mapGet g.line_map k = some v → mapGet g'.line_map k = some v) ∧
    SessionInv g' ∧
    (∀ r, res = RResult.ok (some r) → mapGet g'.line_map n = some r) ∧
    (∀ k v, mapGet g'.line_map k = some v →
      g'.get_line k = RustOutcome.ok (RResult.ok (some v), g')) := by
  obtain ⟨hsc, hma⟩ := hinv
  unfold GitBlame.get_line at hrun
  rcases hcache : mapGet g.line_map n with _ | l
  case some =>
    rw [hcache] at hrun
    dsimp only at hrun
    obtain ⟨rfl, rfl⟩ : RResult.ok (some l) = res ∧ g = g' := by simpa using hrun
    refine ⟨fun k v hv => hv, ⟨hsc, hma⟩, ?_, fun k v hv => get_line_of_mapGet g k v hv⟩
    intro r hr
    obtain rfl : l = r := by simpa using hr
    exact hcache
  case none =>
    rw [hcache] at hrun
    dsimp only at hrun
    unfold GitBlame.scan_for_line at hrun
    obtain ⟨rest, m, ex, hscan⟩ :
        ∃ a b c, scanLoop n g.reader g.line_map = (a, b, c) := ⟨_, _, _, rfl⟩
    rw [hscan] at hrun
    obtain ⟨p1, sc', ma', fnd⟩ :=
      scanLoop_preserves n g.reader g.line_map rest m ex hsc hma hscan
    cases ex with
    | panicked => exact absurd hrun (by simp)
    | found oid =>
      dsimp only at hrun
      obtain ⟨rfl, rfl⟩ :
          RResult.ok (some oid) = res ∧ (⟨rest, g.error_reader, m⟩ : GitBlame) = g' := by
        simpa using hrun
      refine ⟨p1, ⟨sc', ma'⟩, ?_, fun k v hv => get_line_of_mapGet _ k v hv⟩
      intro r hr
      obtain rfl : oid = r := by simpa using hr
      exact fnd oid rfl
    | eof =>
      dsimp only at hrun
      rcases herr : g.error_reader with txt | _
      · rw [herr] at hrun
        dsimp only at hrun
        by_cases ht : txt.isEmpty
        · rw [if_pos ht] at hrun
          obtain ⟨rfl, rfl⟩ :
              RResult.ok none = res ∧ (⟨rest, StderrState.ok "", m⟩ : GitBlame) = g' := by
            simpa using hrun
          refine ⟨p1, ⟨sc', ma'⟩, ?_, fun k v hv => get_line_of_mapGet _ k v hv⟩
          intro r hr
          exact absurd hr (by simp)
        · rw [if_neg ht] at hrun
          obtain ⟨rfl, rfl⟩ :
              RResult.err (ErrorKind.BlameError txt) = res ∧
                (⟨rest, StderrState.ok "", m⟩ : GitBlame) = g' := by
            simpa using hrun
          refine ⟨p1, ⟨sc', ma'⟩, ?_, fun k v hv => get_line_of_mapGet _ k v hv⟩
          intro r hr
          exact absurd hr (by simp)
      · rw [herr] at hrun
        dsimp only at hrun
        obtain ⟨rfl, rfl⟩ :
            RResult.err ErrorKind.IoError = res ∧
              (⟨rest, StderrState.ioError, m⟩ : GitBlame) = g' := by
          simpa using hrun
        refine ⟨p1, ⟨sc', ma'⟩, ?_, fun k v hv => get_line_of_mapGet _ k v hv⟩
        intro r hr
        exact absurd hr (by simp)
    | readErr =>
      dsimp only at hrun
      rcases herr : g.error_reader with txt | _
      · rw [herr] at hrun
        dsimp only at hrun
        by_cases ht : txt.isEmpty
        · rw [if_pos ht] at hrun
          obtain ⟨rfl, rfl⟩ :
              RResult.ok none = res ∧ (⟨rest, StderrState.ok "", m⟩ : GitBlame) = g' := by
            simpa using hrun
          refine ⟨p1, ⟨sc', ma'⟩, ?_, fun k v hv => get_line_of_mapGet _ k v hv⟩
          intro r hr
          exact absurd hr (by simp)
        · rw [if_neg ht] at hrun
          obtain ⟨rfl, rfl⟩ :
              RResult.err (ErrorKind.BlameError txt) = res ∧
                (⟨rest, StderrState.ok "", m⟩ : GitBlame) = g' := by
            simpa using hrun
          refine ⟨p1, ⟨sc', ma'⟩, ?_, fun k v hv => get_line_of_mapGet _ k v hv⟩
          intro r hr
          exact absurd hr (by simp)
      · rw [herr] at hrun
        dsimp only at hrun
        obtain ⟨rfl, rfl⟩ :
            RResult.err ErrorKind.IoError = res ∧
              (⟨rest, StderrState.ioError, m⟩ : GitBlame) = g' := by
          simpa using hrun
        refine ⟨p1, ⟨sc', ma'⟩, ?_, fun k v hv => get_line_of_mapGet _ k v hv⟩
        intro r hr
        exact absurd hr (by simp)

/-- Witness for C5 (amended): a resolved lookup ends up in the cache. -/
theorem get_line_cache_stable_witness :
    mapGet [(1, oidA)] 1 = some oidA :=
  (get_line_cache_stable ⟨[], StderrState.ok "", [(1, oidA)]⟩ 1
      (RResult.ok (some oidA)) ⟨[], StderrState.ok "", [(1, oidA)]⟩
      ⟨fun s1 _ _ _ h1 => absurd h1 (List.not_mem_nil _),
       fun k v s bl _ hs => absurd hs (List.not_mem_nil _)⟩
      (by decide)).2.2.1 oidA rfl

/-- Counterexample to C5 as stated: `HashMap::insert` overwrites an existing
key — after line 1 resolves to the first revision, a scan for line 2 passes
a second record for line 1 with a different revision and reassigns the
cached key, so a repeated lookup of line 1 returns the new revision. -/
theorem line_map_reassigned_counterexample :
    GitBlame.get_line ⟨[ReadEvent.line (recLine hexA 1), ReadEvent.line (recLine hexB 1),
        ReadEvent.line (recLine hexC 2)], StderrState.ok "", []⟩ 1 =
      RustOutcome.ok (RResult.ok (some oidA),
        ⟨[ReadEvent.line (recLine hexB 1), ReadEvent.line (recLine hexC 2)],
         StderrState.ok "", [(1, oidA)]⟩) ∧
    GitBlame.get_line ⟨[ReadEvent.line (recLine hexB 1), ReadEvent.line (recLine hexC 2)],
        StderrState.ok "", [(1, oidA)]⟩ 2 =
      RustOutcome.ok (RResult.ok (some oidC),
        ⟨[], StderrState.ok "", [(2, oidC), (1, oidB), (1, oidA)]⟩) ∧
    GitBlame.get_line ⟨[], StderrState.ok "", [(2, oidC), (1, oidB), (1, oidA)]⟩ 1 =
      RustOutcome.ok (RResult.ok (some oidB),
        ⟨[], StderrState.ok "", [(2, oidC), (1, oidB), (1, oidA)]⟩) ∧
    oidB ≠ oidA := by
  refine ⟨?_, ?_, ?_, ?_⟩ <;> decide

theorem scanLoop_clean_exhausts (lineno : Nat) :
    ∀ (events : List ReadEvent) (m : List (Nat × Oid)) (rest : List ReadEvent)
      (m' : List (Nat × Oid)) (ex : ScanExit),
      (∀ e ∈ events, e ≠ ReadEvent.ioError) →
      (∀ s, ReadEvent.line s ∈ events → s.isEmpty = false) →
      scanLoop lineno events m = (rest, m', ex) →
      (ex = ScanExit.eof ∨ ex = ScanExit.readErr) → rest = [] := by
  intro events
  induction events with
  | nil =>
    intro m rest m' ex _ _ h _
    simp only [scanLoop, Prod.mk.injEq] at h
    exact h.1.symm
  | cons e t ih =>
    intro m rest m' ex hno hemp h hex
    cases e with
    | ioError => exact absurd rfl (hno _ (List.mem_cons_self _ _))
    | line str =>
      have hse : str.isEmpty = false := hemp str (List.mem_cons_self _ _)
      have hnot : ∀ e ∈ t, e ≠ ReadEvent.ioError :=
        fun e he => hno e (List.mem_cons_of_mem _ he)
      have hempt : ∀ s, ReadEvent.line s ∈ t → s.isEmpty = false :=
        fun s hs => hemp s (List.mem_cons_of_mem _ hs)
      rcases hbn : BlameLine.new str with o | _
      · cases o with
        | none =>
          simp only [scanLoop, hse, Bool.false_eq_true, if_false, hbn] at h
          exact ih m rest m' ex hnot hempt h hex
        | some bl =>
          by_cases heq : bl.original_lineno = lineno
          · simp only [scanLoop, hse, Bool.false_eq_true, if_false, hbn, heq, if_true,
              Prod.mk.injEq] at h
            obtain ⟨-, -, rfl⟩ := h
            rcases hex with hh | hh <;> cases hh
          · simp only [scanLoop, hse, Bool.false_eq_true, if_false, hbn, heq,
              Prod.mk.injEq] at h
            exact ih (mapInsert m bl.original_lineno bl.oid) rest m' ex hnot hempt h hex
      · simp only [scanLoop, hse, Bool.false_eq_true, if_false, hbn, Prod.mk.injEq] at h
        obtain ⟨-, -, rfl⟩ := h
        rcases hex with hh | hh <;> cases hh

/-- C10 (amended): a `BlameError` that follows a clean scan — no read error
on standard output, so the loop ended at genuine end-of-stream — leaves both
streams exhausted: the session's stdout stream is empty, its stderr is
drained, and every subsequent lookup for an uncached line returns `Ok(None)`
with the session unchanged.  (After a transient stdout read failure the
stream is not exhausted and a later lookup can still find records.) -/
theorem blame_error_not_sticky (g : GitBlame) (n : Nat) (txt : String) (g' : GitBlame)
    (hno : ∀ e ∈ g.reader, e ≠ ReadEvent.ioError)
    (hemp : ∀ s, ReadEvent.line s ∈ g.reader → s.isEmpty = false)
    (hrun : g.get_line n = RustOutcome.ok (RResult.err (ErrorKind.BlameError txt), g')) :
    g'.reader = [] ∧ g'.error_reader = StderrState.ok "" ∧
    ∀ k, mapGet g'.line_map k = none →
      g'.get_line k = RustOutcome.ok (RResult.ok none, g') := by
  unfold GitBlame.get_line at hrun
  rcases hcache : mapGet g.line_map n with _ | l
  case some =>
    rw [hcache] at hrun
    exact absurd hrun (by simp)
  case none =>
    rw [hcache] at hrun
    dsimp only at hrun
    unfold GitBlame.scan_for_line at hrun
    obtain ⟨rest, m, ex, hscan⟩ :
        ∃ a b c, scanLoop n g.reader g.line_map = (a, b, c) := ⟨_, _, _, rfl⟩
    rw [hscan] at hrun
    have hrest : (ex = ScanExit.eof ∨ ex = ScanExit.readErr) → rest = [] := fun hh =>
      scanLoop_clean_exhausts n g.reader g.line_map rest m ex hno hemp hscan hh
    have hfinish : ∀ (hrest0 : rest = []),
        (⟨rest, StderrState.ok "", m⟩ : GitBlame) = g' →
        g'.reader = [] ∧ g'.error_reader = StderrState.ok "" ∧
        ∀ k, mapGet g'.line_map k = none →
          g'.get_line k = RustOutcome.ok (RResult.ok none, g') := by
      rintro rfl rfl
      refine ⟨rfl, rfl, ?_⟩
      intro k hk
      dsimp only at hk
      unfold GitBlame.get_line
      dsimp only
      rw [hk]
      have hemp0 : ("" : String).isEmpty = true := rfl
      simp [GitBlame.scan_for_line, scanLoop, hemp0]
    cases ex with
    | panicked => exact absurd hrun (by simp)
    | found oid => exact absurd hrun (by simp)
    | eof =>
      dsimp only at hrun
      rcases herr : g.error_reader with txt' | _
      · rw [herr] at hrun
        dsimp only at hrun
        by_cases ht : txt'.isEmpty
        · rw [if_pos ht] at hrun
          exact absurd hrun (by simp)
        · rw [if_neg ht] at hrun
          obtain ⟨-, hg⟩ :
              txt' = txt ∧ (⟨rest, StderrState.ok "", m⟩ : GitBlame) = g' := by
            simpa using hrun
          exact hfinish (hrest (Or.inl rfl)) hg
      · rw [herr] at hrun
        exact absurd hrun (by simp)
    | readErr =>
      dsimp only at hrun
      rcases herr : g.error_reader with txt' | _
      · rw [herr] at hrun
        dsimp only at hrun
        by_cases ht : txt'.isEmpty
        · rw [if_pos ht] at hrun
          exact absurd hrun (by simp)
        · rw [if_neg ht] at hrun
          obtain ⟨-, hg⟩ :
              txt' = txt ∧ (⟨rest, StderrState.ok "", m⟩ : GitBlame) = g' := by
            simpa using hrun
          exact hfinish (hrest (Or.inr rfl)) hg
      · rw [herr] at hrun
        exact absurd hrun (by simp)

/-- Witness for C10 (amended): after a clean-scan `BlameError`, a further
lookup of the (exhausted) session succeeds with no result. -/
theorem blame_error_not_sticky_witness :
    GitBlame.get_line ⟨[], StderrState.ok "", []⟩ 1 =
      RustOutcome.ok (RResult.ok none, ⟨[], StderrState.ok "", []⟩) :=
  (blame_error_not_sticky ⟨[ReadEvent.line "author x\n"], StderrState.ok "boom", []⟩ 1
      "boom" ⟨[], StderrState.ok "", []⟩
      (by decide)
      (by
        intro s hs
        simp only [List.mem_singleton, ReadEvent.line.injEq] at hs
        rw [hs]
        decide)
      (by decide)).2.2 1 rfl

/-- Counterexample to C10 as stated: a transient read failure on standard
output also produces a `BlameError` (stderr had text), but the output stream
is not exhausted — the very next lookup for the uncached line 1 finds its
record and returns it instead of `Ok(None)`. -/
theorem blame_error_sticky_counterexample :
    GitBlame.get_line ⟨[ReadEvent.ioError, ReadEvent.line (recLine hexA 1)],
        StderrState.ok "fatal: bad revision\n", []⟩ 1 =
      RustOutcome.ok (RResult.err (ErrorKind.BlameError "fatal: bad revision\n"),
        ⟨[ReadEvent.line (recLine hexA 1)], StderrState.ok "", []⟩) ∧
    GitBlame.get_line ⟨[ReadEvent.line (recLine hexA 1)], StderrState.ok "", []⟩ 1 =
      RustOutcome.ok (RResult.ok (some oidA), ⟨[], StderrState.ok "", [(1, oidA)]⟩) := by
  constructor <;> decide

end Codealong
